import Mathlib

/-!
Shallow embedding of the adaptive OCR quality/cost engine of the change-ocr
repository (src/services/geminiService.ts, src/services/imageService.ts,
src/constants.ts, src/types.ts).

Text is modelled as `List Char` (one entry per code point). Scores are
modelled as `ℚ`; every score-producing expression in the source is a short
chain of additions, subtractions, multiplications by decimal literals with
small denominators, `Math.min`/`Math.max` and divisions, all of which are
exact in IEEE-754 only up to rounding — the rational model captures the
intended real-number arithmetic of those formulas.

External effects (the inference service, `JSON.parse`, `localStorage`,
`Date.now`) are modelled as explicit inputs: attempt outcomes and verifier
replies are oracle data fed to the run functions, `JSON.parse`'s score
extraction is an arbitrary function parameter, the cache key and timestamp
are parameters, and cache writes are returned as data.
-/

/-- Text as a list of characters. -/
abbrev Str := List Char

/-! ## Data model (src/types.ts, src/constants.ts) -/

/-- src/types.ts: `ModelType` (the two model tiers). -/
inductive ModelType
  | FLASH
  | PRO
deriving DecidableEq

/-- src/types.ts: `OptimizationProfile`. -/
inductive OptimizationProfile
  | economy
  | balanced
  | accuracy
deriving DecidableEq

/-- src/types.ts: `AnalysisEventType`. -/
inductive EventType
  | cacheHit
  | profileStart
  | profileAccepted
  | profileEscalated
  | completed
deriving DecidableEq

/-- src/types.ts: `AnalysisEvent`, restricted to the fields the claims are
about (`message`, `reasons` and the token estimates are dropped; the
quality fields are `none` exactly when the source leaves them `undefined`). -/
structure AnalysisEvent where
  type : EventType
  profile : OptimizationProfile
  qualityScore : Option ℚ
  verificationScore : Option ℚ
deriving DecidableEq

/-- src/types.ts: `QualityAssessment` (score plus human-readable reasons). -/
structure QualityAssessment where
  score : ℚ
  reasons : List String
deriving DecidableEq

/-- src/constants.ts: `OcrProfilePolicy`. -/
structure OcrProfilePolicy where
  model : ModelType
  imageMaxDimension : ℕ
  imageChunkSize : ℕ
  minQualityScore : ℚ
  carryContextChars : ℕ
deriving DecidableEq

/-- src/constants.ts: `OCR_PROFILE_ORDER`. -/
def OCR_PROFILE_ORDER : List OptimizationProfile :=
  [.economy, .balanced, .accuracy]

/-- src/constants.ts: `OCR_PROFILE_POLICIES` (record lookup as a function). -/
def OCR_PROFILE_POLICIES : OptimizationProfile → OcrProfilePolicy
  | .economy => ⟨.FLASH, 1600, 8, 58/100, 240⟩
  | .balanced => ⟨.FLASH, 2200, 5, 72/100, 420⟩
  | .accuracy => ⟨.PRO, 3200, 3, 0, 640⟩

/-- src/constants.ts: `PDF_BALANCED_MAX_MB = 4`. -/
def PDF_BALANCED_MAX_MB : ℕ := 4

/-- src/constants.ts: `PDF_ECONOMY_MIN_MB = 12`. -/
def PDF_ECONOMY_MIN_MB : ℕ := 12

/-- src/constants.ts: `PDF_ESCALATION_THRESHOLD = 0.45`. -/
def PDF_ESCALATION_THRESHOLD : ℚ := 45/100

/-- src/constants.ts: `OUTPUT_STREAM_CHUNK_SIZE = 1400`. -/
def OUTPUT_STREAM_CHUNK_SIZE : ℕ := 1400

/-! ## String helpers shared by both services -/

/-- The whitespace characters recognised by the JS `\s` class and
`String.prototype.trim`, restricted to the ASCII range (the source texts
involved in the claims contain no non-ASCII whitespace). -/
def isJsSpace (c : Char) : Bool :=
  c == ' ' || c == '\t' || c == '\n' || c == '\r' || c == '\x0b' || c == '\x0c'

/-- The JS `\w` class: ASCII letters, digits and underscore. -/
def isJsWordChar (c : Char) : Bool :=
  c.isAlpha || c.isDigit || c == '_'

/-- JS `String.prototype.trim`: strip leading and trailing whitespace. -/
def jsTrim (s : Str) : Str :=
  ((s.dropWhile isJsSpace).reverse.dropWhile isJsSpace).reverse

/-- JS `text.replace(/\r/g, '')`. -/
def removeCR (s : Str) : Str :=
  s.filter (fun c => c != '\r')

/-- JS `text.split('\n')` (always at least one field, empty fields kept). -/
def splitOnNL : Str → List Str
  | [] => [[]]
  | c :: rest =>
    if c = '\n' then [] :: splitOnNL rest
    else
      match splitOnNL rest with
      | [] => [[c]]
      | l :: ls => (c :: l) :: ls

/-- Number of maximal runs of characters satisfying `p` whose length is at
least `k`; this is the number of matches of the JS global regex `p{k,}`
(the regex is greedy, so each match consumes one maximal run).
`run` is the length of the run of `p`-characters immediately before the
current position. -/
def countRunsGo (p : Char → Bool) (k : ℕ) : ℕ → Str → ℕ
  | run, [] => if 0 < run ∧ k ≤ run then 1 else 0
  | run, c :: rest =>
    if p c then countRunsGo p k (run + 1) rest
    else (if 0 < run ∧ k ≤ run then 1 else 0) + countRunsGo p k 0 rest

/-- Number of maximal runs of `p`-characters of length ≥ `k`. -/
def countRuns (p : Char → Bool) (k : ℕ) (s : Str) : ℕ :=
  countRunsGo p k 0 s

/-- Number of matches of the JS global regex `/(.)\1{7,}/g` generalised to
length bound `k`: maximal runs of one repeated character of length ≥ `k`,
where `.` does not match a line terminator. The state is the character of
the current run and its length so far. -/
def countBurstsGo (k : ℕ) : Option (Char × ℕ) → Str → ℕ
  | none, [] => 0
  | some (c, run), [] => if c ≠ '\n' ∧ k ≤ run then 1 else 0
  | none, x :: rest => countBurstsGo k (some (x, 1)) rest
  | some (c, run), x :: rest =>
    if x = c then countBurstsGo k (some (c, run + 1)) rest
    else (if c ≠ '\n' ∧ k ≤ run then 1 else 0) + countBurstsGo k (some (x, 1)) rest

/-- Maximal runs of a single repeated non-newline character of length ≥ `k`. -/
def countBursts (k : ℕ) (s : Str) : ℕ :=
  countBurstsGo k none s

/-- Source: `Math.max(0, Math.min(1, x))`, the clamp used for quality scores and
verifier scores in both services. -/
def clamp01 (x : ℚ) : ℚ := max 0 (min 1 x)

/-! ## Quality measures shared by both `evaluateQuality` variants
(src/services/geminiService.ts lines 155-202 and
src/services/imageService.ts lines 143-190; the two variants count the
same statistics and differ only in weights, floors and reason strings). -/

/-- Source: `normalizedLines`: split on newlines, trim each line, keep the
non-empty ones (identical helper in both services). -/
def normalizedLines (text : Str) : List Str :=
  ((splitOnNL (removeCR text)).map jsTrim).filter (fun l => !l.isEmpty)

/-- Source: `Math.max(normalized.length, 1)` as a rational. -/
def charCount (text : Str) : ℚ :=
  ((max (removeCR text).length 1 : ℕ) : ℚ)

/-- Source: `(normalized.match(/�/g) ?? []).length / chars`. -/
def unreadableRate (text : Str) : ℚ :=
  (((removeCR text).filter (fun c => c == '�')).length : ℚ) / charCount text

/-- Source: `(normalized.match(/□/g) ?? []).length / chars`. -/
def placeholderRate (text : Str) : ℚ :=
  (((removeCR text).filter (fun c => c == '□')).length : ℚ) / charCount text

/-- Source: `(normalized.match(/[^\w\s]{5,}/g) ?? []).length`. -/
def punctuationBlobCount (text : Str) : ℕ :=
  countRuns (fun c => !(isJsWordChar c || isJsSpace c)) 5 (removeCR text)

/-- Source: `(normalized.match(/[^\s]{35,}/g) ?? []).length`. -/
def veryLongTokenCount (text : Str) : ℕ :=
  countRuns (fun c => !isJsSpace c) 35 (removeCR text)

/-- Source: `(normalized.match(/(.)\1{7,}/g) ?? []).length`. -/
def repeatedGlyphBurstCount (text : Str) : ℕ :=
  countBursts 8 (removeCR text)

/-- A trimmed line matching `/^#{1,6}\s/`: one to six leading `#` followed
by a whitespace character (seven or more `#` cannot match, since every
backtracking position still faces a `#` where `\s` is required). -/
def isHeadingLine (line : Str) : Bool :=
  let h := (line.takeWhile (fun c => c = '#')).length
  decide (1 ≤ h) && decide (h ≤ 6) &&
    (match line.drop h with
     | c :: _ => isJsSpace c
     | [] => false)

/-- A line containing a table delimiter (`/\|/`). -/
def isTableLine (line : Str) : Bool :=
  line.any (fun c => c == '|')

/-- Source: `lines.filter(line => line.length <= 2).length / lines.length`
(rate 1 when there are no lines). -/
def shortLineRate (text : Str) : ℚ :=
  let lines := normalizedLines text
  if lines.length = 0 then 1
  else ((lines.filter (fun l => decide (l.length ≤ 2))).length : ℚ) / (lines.length : ℚ)

/-- Source: `markdownHeadingCount + tableLineCount`. -/
def structureSignal (text : Str) : ℕ :=
  ((normalizedLines text).filter isHeadingLine).length
    + ((normalizedLines text).filter isTableLine).length

/-- Source: `normalized.trim().length`. -/
def trimmedLength (text : Str) : ℕ :=
  (jsTrim (removeCR text)).length

/-- Number of non-empty trimmed lines. -/
def lineCount (text : Str) : ℕ :=
  (normalizedLines text).length

/-! ## geminiService.evaluateQuality (src/services/geminiService.ts 163-202)

The source computes the score as one let-chain; here the chain is split
into the six weighted penalties (`preScore`), the flat too-short penalty,
the flat missing-structure penalty, and the reasons list — subtraction in
ℚ is associative, so `preScore - shortPenalty - structurePenalty` is the
source's accumulated `score` before the final clamp. -/

namespace geminiService

/-- The score after the six weighted penalties of lines 180-186. -/
def preScore (text : Str) : ℚ :=
  1 - unreadableRate text * (22/10)
    - min (15/100) (placeholderRate text * (6/10))
    - shortLineRate text * (45/100)
    - min (25/100) ((punctuationBlobCount text : ℚ) * (3/100))
    - min (2/10) ((veryLongTokenCount text : ℚ) * (2/100))
    - min (25/100) ((repeatedGlyphBurstCount text : ℚ) * (4/100))

/-- Line 187: `if (normalized.trim().length < 120) score -= 0.25`. -/
def shortPenalty (text : Str) : ℚ :=
  if trimmedLength text < 120 then 25/100 else 0

/-- Line 188: `if (structureSignal === 0 && lines.length > 40) score -= 0.06`. -/
def structurePenalty (text : Str) : ℚ :=
  if structureSignal text = 0 ∧ 40 < lineCount text then 6/100 else 0

/-- Lines 191-198: the ordered reason strings appended by the triggered
thresholds. -/
def reasonsRaw (text : Str) : List String :=
  (if unreadableRate text > 3/1000 then ["High ratio of corrupted replacement characters"] else [])
  ++ (if placeholderRate text > 2/100 then ["Many unresolved glyph placeholders remain"] else [])
  ++ (if shortLineRate text > 35/100 then ["Too many fragmented short lines"] else [])
  ++ (if punctuationBlobCount text > 3 then ["Potential OCR artifacts around symbols"] else [])
  ++ (if veryLongTokenCount text > 2 then ["Unnaturally long tokens may indicate OCR merge errors"] else [])
  ++ (if repeatedGlyphBurstCount text > 1 then ["Repeated glyph bursts detected"] else [])
  ++ (if trimmedLength text < 120 then ["Output is unexpectedly short"] else [])

/-- Line 199: the stable fallback when no threshold triggered. -/
def reasonsFor (text : Str) : List String :=
  if (reasonsRaw text).isEmpty then ["Transcription quality is stable"] else reasonsRaw text

/-- src/services/geminiService.ts 163-202: `evaluateQuality`. -/
def evaluateQuality (text : Str) : QualityAssessment :=
  ⟨clamp01 (preScore text - shortPenalty text - structurePenalty text), reasonsFor text⟩

end geminiService

/-! ## imageService.evaluateQuality (src/services/imageService.ts 151-190) -/

namespace imageService

/-- The score after the six weighted penalties of lines 168-174. -/
def preScore (text : Str) : ℚ :=
  1 - unreadableRate text * (23/10)
    - min (15/100) (placeholderRate text * (65/100))
    - shortLineRate text * (4/10)
    - min (25/100) ((punctuationBlobCount text : ℚ) * (3/100))
    - min (2/10) ((veryLongTokenCount text : ℚ) * (2/100))
    - min (25/100) ((repeatedGlyphBurstCount text : ℚ) * (4/100))

/-- Line 175: `if (normalized.trim().length < 80) score -= 0.2`. -/
def shortPenalty (text : Str) : ℚ :=
  if trimmedLength text < 80 then 2/10 else 0

/-- Line 176: `if (structureSignal === 0 && lines.length > 30) score -= 0.06`. -/
def structurePenalty (text : Str) : ℚ :=
  if structureSignal text = 0 ∧ 30 < lineCount text then 6/100 else 0

/-- Lines 179-186: the ordered reason strings appended by the triggered
thresholds. -/
def reasonsRaw (text : Str) : List String :=
  (if unreadableRate text > 4/1000 then ["Unreadable replacement character ratio is high"] else [])
  ++ (if placeholderRate text > 25/1000 then ["Many unresolved glyph placeholders remain"] else [])
  ++ (if shortLineRate text > 4/10 then ["Fragmented line pattern detected"] else [])
  ++ (if punctuationBlobCount text > 3 then ["Symbol artifacts detected"] else [])
  ++ (if veryLongTokenCount text > 2 then ["Long token merges suggest OCR boundary errors"] else [])
  ++ (if repeatedGlyphBurstCount text > 1 then ["Repeated glyph bursts detected"] else [])
  ++ (if trimmedLength text < 80 then ["Chunk output is unexpectedly short"] else [])

/-- Line 187: the stable fallback when no threshold triggered. -/
def reasonsFor (text : Str) : List String :=
  if (reasonsRaw text).isEmpty then ["Chunk quality looks stable"] else reasonsRaw text

/-- src/services/imageService.ts 151-190: `evaluateQuality`. -/
def evaluateQuality (text : Str) : QualityAssessment :=
  ⟨clamp01 (preScore text - shortPenalty text - structurePenalty text), reasonsFor text⟩

end imageService

/-! ## Verifier response parsing (identical `parseVerifierScore` in
src/services/geminiService.ts 211-228 and src/services/imageService.ts
199-216)

`JSON.parse` is external; it is modelled by an arbitrary oracle
`js : Str → Option ℚ` returning `some s` exactly when parsing the
candidate succeeds and its `score` field is a number `s` (unclamped),
and `none` when parsing throws or the field is absent/non-numeric. -/

/-- Source: `raw.trim().replace(/^```json\s*/i, '')`: strip one leading
case-insensitive ```` ```json ```` fence marker and following whitespace. -/
def stripFenceJson (s : Str) : Str :=
  match s with
  | '`' :: '`' :: '`' :: c1 :: c2 :: c3 :: c4 :: rest =>
    if c1.toLower = 'j' ∧ c2.toLower = 's' ∧ c3.toLower = 'o' ∧ c4.toLower = 'n' then
      rest.dropWhile isJsSpace
    else s
  | _ => s

/-- Source: `.replace(/^```\s*/i, '')`: strip one leading ```` ``` ```` fence and
following whitespace. -/
def stripFencePlain (s : Str) : Str :=
  match s with
  | '`' :: '`' :: '`' :: rest => rest.dropWhile isJsSpace
  | _ => s

/-- Source: `.replace(/```$/i, '')`: strip one trailing ```` ``` ```` fence. -/
def stripFenceEnd (s : Str) : Str :=
  match s.reverse with
  | '`' :: '`' :: '`' :: rest => rest.reverse
  | _ => s

/-- Source: `fenced.match(/\{[\s\S]*\}/)`: the greedy match runs from the first
opening brace to the last closing brace at or after it, if any. -/
def braceSlice (s : Str) : Option Str :=
  let t := s.dropWhile (fun c => c ≠ '\x7b')
  if t.isEmpty then none
  else
    let u := (t.reverse.dropWhile (fun c => c ≠ '\x7d')).reverse
    if u.isEmpty then none else some u

/-- The inner `tryParse`: on a successful numeric parse, clamp the score
with `Math.max(0, Math.min(1, parsed.score))`; otherwise `null`. -/
def tryParseScore (js : Str → Option ℚ) (candidate : Str) : Option ℚ :=
  match js candidate with
  | some s => some (clamp01 s)
  | none => none

/-- The body of `parseVerifierScore` after the fence stripping: direct
parse first, then parse of the embedded brace-delimited object. -/
def parseVerifierCore (js : Str → Option ℚ) (fenced : Str) : Option ℚ :=
  match tryParseScore js fenced with
  | some v => some v
  | none =>
    match braceSlice fenced with
    | some m => tryParseScore js m
    | none => none

/-- Source: `parseVerifierScore` (identical in both services): strip fences from
the trimmed raw response, then `parseVerifierCore`. -/
def parseVerifierScore (js : Str → Option ℚ) (raw : Str) : Option ℚ :=
  parseVerifierCore js (stripFenceEnd (stripFencePlain (stripFenceJson (jsTrim raw))))

/-- Source: `runQualityVerifier` (geminiService 230-257, imageService 218-245):
trivially short text short-circuits to score 0 without calling the
service; the service call is an oracle `reply` (`none` models a thrown
transport error, which the source catches and turns into `null`), and a
reply string is parsed with `parseVerifierScore`. -/
def runQualityVerifierModel (js : Str → Option ℚ) (text : Str) (reply : Option Str) : Option ℚ :=
  if (jsTrim text).length < 60 then some 0
  else
    match reply with
    | none => none
    | some raw => parseVerifierScore js raw

/-- The effective score blend of geminiService 358-360 and imageService
466-468: the heuristic score when the verifier gave no opinion, else
`heuristic * 0.78 + verifier * 0.22`. -/
def effectiveScore (heuristic : ℚ) : Option ℚ → ℚ
  | none => heuristic
  | some v => heuristic * (78/100) + v * (22/100)

/-- Source: `createTextStream` (geminiService 264-268, imageService 130-134):
slice the text into consecutive `OUTPUT_STREAM_CHUNK_SIZE`-character
chunks. -/
def createTextStream (text : Str) : List Str :=
  if h : text = [] then []
  else
    text.take OUTPUT_STREAM_CHUNK_SIZE ::
      createTextStream (text.drop OUTPUT_STREAM_CHUNK_SIZE)
termination_by text.length
decreasing_by
  simp only [List.length_drop]
  have hpos : 0 < text.length := List.length_pos.mpr h
  simp only [OUTPUT_STREAM_CHUNK_SIZE]
  omega

/-! ## PDF candidate profile selection (src/services/geminiService.ts 38-61) -/

namespace geminiService

/-- Source: `toMB` (line 38): `Math.floor((base64.length * 0.75) / (1024 * 1024))`.
`len * 0.75 = len * 3 / 4` and the division by the power of two
`1024 * 1024` are exact in IEEE-754 for any realistic length, so the
float computation equals the exact rational floor `len * 3 / 4194304`. -/
def toMB (base64Length : ℕ) : ℕ :=
  base64Length * 3 / (4 * 1024 * 1024)

/-- Source: `decideInitialPdfProfile` (lines 40-45). -/
def decideInitialPdfProfile (base64Length : ℕ) : OptimizationProfile :=
  if PDF_ECONOMY_MIN_MB ≤ toMB base64Length then .economy
  else if toMB base64Length ≤ PDF_BALANCED_MAX_MB then .balanced
  else .economy

/-- Source: `resolvePdfCandidateProfiles` (lines 47-61). -/
def resolvePdfCandidateProfiles (base64Length : ℕ) (modelOverride : Option ModelType) :
    List OptimizationProfile :=
  let initial := decideInitialPdfProfile base64Length
  match modelOverride with
  | some .PRO => [.accuracy]
  | some .FLASH => if initial = .balanced then [.balanced] else [.economy, .balanced]
  | none =>
    if initial = .balanced then [.balanced, .accuracy]
    else [.economy, .balanced, .accuracy]

/-- Source: `requiredPdfScore` (lines 259-262). -/
def requiredPdfScore (profile : OptimizationProfile) : ℚ :=
  if profile = .accuracy then 0
  else max PDF_ESCALATION_THRESHOLD ((OCR_PROFILE_POLICIES profile).minQualityScore - 1/10)

/-- Line 356: `needsVerifier = assessment.score < (requiredScore + 0.12)`. -/
def needsVerifier (heuristicScore : ℚ) (profile : OptimizationProfile) : Bool :=
  decide (heuristicScore < requiredPdfScore profile + 12/100)

/-- Line 357: the verifier opinion for a PDF attempt — run the verifier
only when `needsVerifier`, else `null`. -/
def verifierScoreFor (js : Str → Option ℚ) (text : Str) (reply : Option Str)
    (profile : OptimizationProfile) : Option ℚ :=
  if needsVerifier (evaluateQuality text).score profile then
    runQualityVerifierModel js text reply
  else none

/-- Lines 358-360: the blended quality score of a PDF attempt. -/
def qualityScoreFor (js : Str → Option ℚ) (text : Str) (reply : Option Str)
    (profile : OptimizationProfile) : ℚ :=
  effectiveScore (evaluateQuality text).score (verifierScoreFor js text reply profile)

/-- Line 361: `accepted = qualityScore >= requiredScore || isLastProfile`. -/
def acceptedFor (js : Str → Option ℚ) (text : Str) (reply : Option Str)
    (profile : OptimizationProfile) (isLastProfile : Bool) : Bool :=
  decide (requiredPdfScore profile ≤ qualityScoreFor js text reply profile) || isLastProfile

end geminiService

/-! ## Event constructors (the `emit` calls of both services, with the
fields the claims are about) -/

/-- Source: `profile-start` event (no quality fields). -/
def profileStartEvent (p : OptimizationProfile) : AnalysisEvent :=
  ⟨.profileStart, p, none, none⟩

/-- Source: `profile-escalated` emitted from a `catch` block: carries only a
failure message, no quality fields (geminiService 416-420,
imageService 514-518). -/
def failEscalationEvent (p : OptimizationProfile) : AnalysisEvent :=
  ⟨.profileEscalated, p, none, none⟩

/-- Source: `profile-escalated` after a rejected (quality-insufficient) attempt. -/
def escalatedEvent (p : OptimizationProfile) (q : ℚ) (v : Option ℚ) : AnalysisEvent :=
  ⟨.profileEscalated, p, some q, v⟩

/-- Source: `profile-accepted` event. -/
def acceptedEvent (p : OptimizationProfile) (q : ℚ) (v : Option ℚ) : AnalysisEvent :=
  ⟨.profileAccepted, p, some q, v⟩

/-- Source: `completed` event after a live accepted attempt. -/
def completedEvent (p : OptimizationProfile) (q : ℚ) (v : Option ℚ) : AnalysisEvent :=
  ⟨.completed, p, some q, v⟩

/-- Source: `cache-hit` event. -/
def cacheHitEvent (p : OptimizationProfile) (q : ℚ) : AnalysisEvent :=
  ⟨.cacheHit, p, some q, none⟩

/-- Source: `completed` event of the cached replay path. -/
def completedCachedEvent (p : OptimizationProfile) (q : ℚ) : AnalysisEvent :=
  ⟨.completed, p, some q, none⟩

/-! ## PDF escalation run (src/services/geminiService.ts 301-424) -/

namespace geminiService

/-- Source: `PdfCacheEntry` (lines 21-26). -/
structure PdfCacheEntry where
  createdAt : ℕ
  text : Str
  profile : OptimizationProfile
  quality : ℚ
deriving DecidableEq

/-- The outcome of one attempt's external interactions: either the
streamed generation call throws (`failure`), or it produces the
concatenated attempt text together with the verifier service's reply
(`none` models a thrown verifier call; the reply is only consulted when
the verifier is actually invoked). -/
inductive PdfAttemptOutcome
  | failure
  | success (text : Str) (verifierReply : Option Str)
deriving DecidableEq

/-- The observable behaviour of one PDF analysis run: the emitted events,
the cache writes (key-entry pairs, in order), the yielded text chunks,
and whether the run aborted with a normalized error. -/
structure PdfRunResult where
  events : List AnalysisEvent
  writes : List (Str × PdfCacheEntry)
  chunks : List Str
  failed : Bool
deriving DecidableEq

/-- The escalation loop of `analyzePdfStream` (lines 330-423), as a
recursion over the candidate profiles paired with each attempt's
external outcome. `isLastProfile` is `index === candidateProfiles.length - 1`,
i.e. the tail being empty. -/
def analyzePdfGo (js : Str → Option ℚ) (cacheKey : Str) (now : ℕ) :
    List (OptimizationProfile × PdfAttemptOutcome) → PdfRunResult
  | [] => ⟨[], [], [], false⟩
  | (p, o) :: rest =>
    let isLast := rest.isEmpty
    match o with
    | .failure =>
      if isLast then ⟨[profileStartEvent p], [], [], true⟩
      else
        let r := analyzePdfGo js cacheKey now rest
        ⟨profileStartEvent p :: failEscalationEvent p :: r.events, r.writes, r.chunks, r.failed⟩
    | .success text reply =>
      let vScore := verifierScoreFor js text reply p
      let q := qualityScoreFor js text reply p
      if acceptedFor js text reply p isLast then
        ⟨[profileStartEvent p, acceptedEvent p q vScore, completedEvent p q vScore],
         [(cacheKey, ⟨now, text, p, q⟩)],
         createTextStream text,
         false⟩
      else
        let r := analyzePdfGo js cacheKey now rest
        ⟨profileStartEvent p :: escalatedEvent p q vScore :: r.events, r.writes, r.chunks, r.failed⟩

/-- Source: `analyzePdfStream` (lines 301-424): a cache hit replays the cached
text through `createTextStream` with no write; a miss runs the
escalation loop over the resolved candidate profiles. -/
def analyzePdfStreamModel (js : Str → Option ℚ) (cacheKey : Str) (now : ℕ)
    (cached : Option PdfCacheEntry) (pdfBase64Length : ℕ)
    (modelOverride : Option ModelType) (outcomes : List PdfAttemptOutcome) : PdfRunResult :=
  match cached with
  | some c =>
    ⟨[cacheHitEvent c.profile c.quality, completedCachedEvent c.profile c.quality],
     [], createTextStream c.text, false⟩
  | none =>
    analyzePdfGo js cacheKey now
      ((resolvePdfCandidateProfiles pdfBase64Length modelOverride).zip outcomes)

end geminiService

/-! ## Image sequence escalation run (src/services/imageService.ts) -/

/-- JS `array.slice(-n)`: the last `n` elements (the whole list when it is
shorter). -/
def lastN {α : Type} (n : ℕ) (l : List α) : List α :=
  l.drop (l.length - n)

/-- Source: `merged.filter((line, idx) => merged.indexOf(line) === idx)`: keep the
first occurrence of every line, in order. -/
def dedupFirstGo (seen : List Str) : List Str → List Str
  | [] => []
  | l :: rest =>
    if l ∈ seen then dedupFirstGo seen rest
    else l :: dedupFirstGo (l :: seen) rest

/-- De-duplicate by first occurrence. -/
def dedupFirst (l : List Str) : List Str := dedupFirstGo [] l

namespace imageService

/-- Source: `extractCarryContext` (src/services/imageService.ts 346-360). -/
def extractCarryContext (text : Str) (maxChars : ℕ) : Str :=
  let lines := ((splitOnNL text).map jsTrim).filter (fun l => !l.isEmpty)
  let headingLines := lastN 3 (lines.filter isHeadingLine)
  let tableLines := lastN 3 (lines.filter isTableLine)
  let tailLines := lastN 4 lines
  let merged := headingLines ++ tableLines ++ tailLines
  let deduped := dedupFirst merged
  let joined := List.intercalate ['\n'] deduped
  if joined.length ≤ maxChars then joined
  else joined.drop (joined.length - maxChars)

/-- Source: `resolveImageCandidateProfiles` (lines 76-80). -/
def resolveImageCandidateProfiles (modelOverride : Option ModelType) :
    List OptimizationProfile :=
  match modelOverride with
  | some .PRO => [.accuracy]
  | some .FLASH => [.economy, .balanced]
  | none => OCR_PROFILE_ORDER

/-- Source: `maxProfile` (lines 420-422): keep the later profile in
`OCR_PROFILE_ORDER`. -/
def maxProfile (current next : OptimizationProfile) : OptimizationProfile :=
  if OCR_PROFILE_ORDER.indexOf current < OCR_PROFILE_ORDER.indexOf next then next
  else current

/-- Line 464: `needsVerifier = assessment.score < (requiredScore + 0.1)`
where `requiredScore = OCR_PROFILE_POLICIES[profile].minQualityScore`. -/
def needsVerifier (heuristicScore : ℚ) (profile : OptimizationProfile) : Bool :=
  decide (heuristicScore < (OCR_PROFILE_POLICIES profile).minQualityScore + 1/10)

/-- Source: `ImageCacheEntry` (lines 20-25). -/
structure ImageCacheEntry where
  createdAt : ℕ
  text : Str
  highestProfile : OptimizationProfile
  quality : ℚ
deriving DecidableEq

/-- The outcome of one span attempt's external interactions (preprocessing
plus the streamed generation call are one `try` block: `failure` models a
throw anywhere inside it). -/
inductive SpanOutcome
  | failure
  | success (text : Str) (verifierReply : Option Str)
deriving DecidableEq

/-- The fields of `SpanResolution` (lines 32-41) the claims are about
(`consumed` is always `span.length = 1` here because `baseChunkSize = 1`;
the token estimates are dropped). -/
structure SpanResolutionM where
  text : Str
  profile : OptimizationProfile
  qualityScore : ℚ
deriving DecidableEq

/-- Result of resolving one span: the emitted events plus either an
accepted resolution or the propagated error. -/
inductive SpanResult
  | ok (events : List AnalysisEvent) (res : SpanResolutionM)
  | err (events : List AnalysisEvent)
deriving DecidableEq

/-- The verifier opinion for a span attempt (line 465). -/
def spanVerifierScore (js : Str → Option ℚ) (text : Str) (reply : Option Str)
    (profile : OptimizationProfile) : Option ℚ :=
  if needsVerifier (evaluateQuality text).score profile then
    runQualityVerifierModel js text reply
  else none

/-- Lines 466-468: the blended quality score of a span attempt. -/
def spanQualityScore (js : Str → Option ℚ) (text : Str) (reply : Option Str)
    (profile : OptimizationProfile) : ℚ :=
  effectiveScore (evaluateQuality text).score (spanVerifierScore js text reply profile)

/-- Line 469: `accepted = qualityScore >= requiredScore || isLastProfile`. -/
def spanAccepted (js : Str → Option ℚ) (text : Str) (reply : Option Str)
    (profile : OptimizationProfile) (isLastProfile : Bool) : Bool :=
  decide ((OCR_PROFILE_POLICIES profile).minQualityScore ≤ spanQualityScore js text reply profile)
    || isLastProfile

/-- The profile loop of `resolveSpanWithEscalation` (lines 444-522) over
the candidate profiles paired with each attempt's outcome; the empty list
is the fall-through `throw new Error('Could not resolve span ...')`. -/
def resolveSpanGo (js : Str → Option ℚ) :
    List (OptimizationProfile × SpanOutcome) → SpanResult
  | [] => .err []
  | (p, o) :: rest =>
    let isLast := rest.isEmpty
    match o with
    | .failure =>
      if isLast then .err [profileStartEvent p]
      else
        match resolveSpanGo js rest with
        | .ok evs r => .ok (profileStartEvent p :: failEscalationEvent p :: evs) r
        | .err evs => .err (profileStartEvent p :: failEscalationEvent p :: evs)
    | .success text reply =>
      let vScore := spanVerifierScore js text reply p
      let q := spanQualityScore js text reply p
      if spanAccepted js text reply p isLast then
        .ok [profileStartEvent p, acceptedEvent p q vScore] ⟨text, p, q⟩
      else
        match resolveSpanGo js rest with
        | .ok evs r => .ok (profileStartEvent p :: escalatedEvent p q vScore :: evs) r
        | .err evs => .err (profileStartEvent p :: escalatedEvent p q vScore :: evs)

/-- The observable behaviour of one image sequence run. -/
structure ImageRunResult where
  events : List AnalysisEvent
  writes : List (Str × ImageCacheEntry)
  chunks : List Str
  failed : Bool
deriving DecidableEq

/-- The `while (cursor < images.length)` loop of
`analyzeImageSequenceStream` (lines 575-633). One list entry of `spans`
holds the attempt outcomes for one source image (each span covers exactly
`baseChunkSize = 1` image, so `consumed` is 1 and the loop advances one
image per iteration); the outcomes are paired with the candidate
profiles as in the source. On loop exit the accumulated state is folded
into the single cache write: an empty accumulator forces the reported
and cached quality to 0 (lines 614-616). -/
def imageLoop (js : Str → Option ℚ) (cacheKey : Str) (now : ℕ)
    (candidates : List OptimizationProfile) :
    List (List SpanOutcome) → Str → OptimizationProfile → ℚ → Str → ImageRunResult
  | [], accumulated, highestProfile, minQualityScore, _carry =>
    let q := if accumulated.isEmpty then 0 else minQualityScore
    ⟨[completedCachedEvent highestProfile q],
     [(cacheKey, ⟨now, accumulated, highestProfile, q⟩)], [], false⟩
  | outcomes :: restSpans, accumulated, highestProfile, minQualityScore, _carry =>
    match resolveSpanGo js (candidates.zip outcomes) with
    | .err evs => ⟨evs, [], [], true⟩
    | .ok evs res =>
      let normalized := jsTrim res.text
      let appendText : Str :=
        if normalized.isEmpty then []
        else if accumulated.isEmpty then normalized
        else '\n' :: '\n' :: normalized
      let carry := extractCarryContext normalized (OCR_PROFILE_POLICIES res.profile).carryContextChars
      let r := imageLoop js cacheKey now candidates restSpans (accumulated ++ appendText)
        (maxProfile highestProfile res.profile) (min minQualityScore res.qualityScore) carry
      ⟨evs ++ r.events,
       r.writes,
       (if appendText.isEmpty then [] else [appendText]) ++ r.chunks,
       r.failed⟩

/-- Source: `analyzeImageSequenceStream` (lines 546-634): a cache hit replays the
cached text through `createTextStream` with no write; a miss runs the
span loop with the initial state of lines 576-582. -/
def analyzeImageSequenceStreamModel (js : Str → Option ℚ) (cacheKey : Str) (now : ℕ)
    (cached : Option ImageCacheEntry) (modelOverride : Option ModelType)
    (spans : List (List SpanOutcome)) : ImageRunResult :=
  match cached with
  | some c =>
    ⟨[cacheHitEvent c.highestProfile c.quality, completedCachedEvent c.highestProfile c.quality],
     [], createTextStream c.text, false⟩
  | none =>
    let candidates := resolveImageCandidateProfiles modelOverride
    imageLoop js cacheKey now candidates spans [] (candidates.headD .economy) 1 []

end imageService

/-! ## Spec-side definition for the candidate-profile refinement claim -/

/-- The candidate list as the spec describes it, for comparison with
`geminiService.resolvePdfCandidateProfiles`: pick the initial profile
from document size (at least 12 MB: economy; at most 4 MB: balanced;
in between: economy), then every profile from the initial one through
accuracy in order; pinning PRO collapses to `[accuracy]`, pinning FLASH
yields `[balanced]` or `[economy, balanced]` depending on the initial
profile. -/
def resolvePdfCandidateProfilesSpec (base64Length : ℕ) (modelOverride : Option ModelType) :
    List OptimizationProfile :=
  let mb := geminiService.toMB base64Length
  let initial : OptimizationProfile :=
    if PDF_ECONOMY_MIN_MB ≤ mb then .economy
    else if mb ≤ PDF_BALANCED_MAX_MB then .balanced
    else .economy
  match modelOverride with
  | some .PRO => [.accuracy]
  | some .FLASH => if initial = .balanced then [.balanced] else [.economy, .balanced]
  | none => OCR_PROFILE_ORDER.dropWhile (fun p => decide (p ≠ initial))

/-- The text used by the live image-path chunk counterexample. -/
def oversizedSpanText : Str := List.replicate 1401 'a'

/-- Whether a span outcome can only contribute text that trims to the
empty string (transport failures contribute no text at all). -/
def spanOutcomeTrimEmpty : imageService.SpanOutcome → Bool
  | .failure => true
  | .success t _ => (jsTrim t).isEmpty

/-! ## Theorems -/

/-- Source: `clamp01` lands in `[0, 1]`. -/
theorem clamp01_bounds (x : ℚ) : 0 ≤ clamp01 x ∧ clamp01 x ≤ 1 :=
  ⟨le_max_left 0 _, max_le (by norm_num) (min_le_left 1 x)⟩

/-- C5: for every PDF input and override, the candidate profile list of
the source equals the list the spec describes (size-based initial
profile, run through `accuracy`, tier-pinning collapse). -/
theorem pdf_candidate_profiles_match_spec (base64Length : ℕ) (modelOverride : Option ModelType) :
    geminiService.resolvePdfCandidateProfiles base64Length modelOverride
      = resolvePdfCandidateProfilesSpec base64Length modelOverride := by
  unfold geminiService.resolvePdfCandidateProfiles resolvePdfCandidateProfilesSpec
    geminiService.decideInitialPdfProfile
  rcases modelOverride with _ | m
  · by_cases h12 : PDF_ECONOMY_MIN_MB ≤ geminiService.toMB base64Length
    · simp [h12, OCR_PROFILE_ORDER]
    · by_cases h4 : geminiService.toMB base64Length ≤ PDF_BALANCED_MAX_MB
      · simp [h12, h4, OCR_PROFILE_ORDER]
      · simp [h12, h4, OCR_PROFILE_ORDER]
  · cases m
    · by_cases h12 : PDF_ECONOMY_MIN_MB ≤ geminiService.toMB base64Length
      · simp [h12]
      · by_cases h4 : geminiService.toMB base64Length ≤ PDF_BALANCED_MAX_MB
        · simp [h12, h4]
        · simp [h12, h4]
    · rfl

/-- C8: the carry-context extractor never exceeds its character budget:
`len(extractCarryContext(text, N)) ≤ N` for every text and every `N`. -/
theorem carry_context_length_le (text : Str) (maxChars : ℕ) :
    (imageService.extractCarryContext text maxChars).length ≤ maxChars := by
  unfold imageService.extractCarryContext
  dsimp only
  split
  · assumption
  · rw [List.length_drop]
    omega

/-- C2 (amended): the Verifier Bridge is invoked exactly when the
heuristic score is strictly below `requiredScore + margin` (margin 0.12
for PDF attempts, 0.10 for image spans); equivalently it is skipped
exactly when the heuristic score already clears the required score by at
least the margin. It is not skipped for clearly failing heuristic
scores. -/
theorem verifier_gate_iff (h : ℚ) (p : OptimizationProfile) :
    (geminiService.needsVerifier h p = true ↔ h < geminiService.requiredPdfScore p + 12/100)
    ∧ (geminiService.needsVerifier h p = false ↔ geminiService.requiredPdfScore p + 12/100 ≤ h)
    ∧ (imageService.needsVerifier h p = true ↔
        h < (OCR_PROFILE_POLICIES p).minQualityScore + 1/10)
    ∧ (imageService.needsVerifier h p = false ↔
        (OCR_PROFILE_POLICIES p).minQualityScore + 1/10 ≤ h) := by
  unfold geminiService.needsVerifier imageService.needsVerifier
  refine ⟨by simp, ?_, by simp, ?_⟩ <;> simp [not_lt]

/-- C2 counterexample: a heuristic score of 0 on the `economy` profile is
more than the margin below the required score (it clearly fails: even a
perfect verifier opinion could not lift the blend past the requirement),
yet the verifier is invoked in both the PDF and the image-span paths —
refuting "it is skipped when the heuristic score clearly fails". -/
theorem verifier_gate_counterexample :
    geminiService.needsVerifier 0 .economy = true
    ∧ (0 : ℚ) < geminiService.requiredPdfScore .economy - 12/100
    ∧ imageService.needsVerifier 0 .economy = true
    ∧ (0 : ℚ) < (OCR_PROFILE_POLICIES .economy).minQualityScore - 1/10 := by
  have hreq : geminiService.requiredPdfScore .economy = 48/100 := by
    unfold geminiService.requiredPdfScore PDF_ESCALATION_THRESHOLD OCR_PROFILE_POLICIES
    rw [if_neg (by simp)]
    norm_num
  refine ⟨?_, by rw [hreq]; norm_num, ?_, by norm_num [OCR_PROFILE_POLICIES]⟩
  · unfold geminiService.needsVerifier
    rw [hreq, decide_eq_true_eq]
    norm_num
  · unfold imageService.needsVerifier
    rw [decide_eq_true_eq]
    norm_num [OCR_PROFILE_POLICIES]

/-- C9: the verifier-response parser is total (a plain function) and, for
every `JSON.parse` behaviour and every raw response string, returns
either no opinion or a score clamped into `[0, 1]`; consequently a
syntactically valid response whose score lies outside `[0, 1]` cannot
push the blend `0.78 * heuristic + 0.22 * verifier` outside `[0, 1]`
when the heuristic score is itself in `[0, 1]`. -/
theorem parse_verifier_clamped (js : Str → Option ℚ) (raw : Str) (s h : ℚ)
    (hs : parseVerifierScore js raw = some s) (h0 : 0 ≤ h) (h1 : h ≤ 1) :
    (0 ≤ s ∧ s ≤ 1)
    ∧ 0 ≤ h * (78/100) + s * (22/100) ∧ h * (78/100) + s * (22/100) ≤ 1 := by
  have htry : ∀ c v, tryParseScore js c = some v → 0 ≤ v ∧ v ≤ 1 := by
    intro c v hv
    unfold tryParseScore at hv
    cases hjs : js c with
    | none => rw [hjs] at hv; exact absurd hv (by simp)
    | some x =>
      rw [hjs] at hv
      simp only [Option.some.injEq] at hv
      exact hv ▸ clamp01_bounds x
  have hclamp : 0 ≤ s ∧ s ≤ 1 := by
    unfold parseVerifierScore parseVerifierCore at hs
    cases h1 : tryParseScore js (stripFenceEnd (stripFencePlain (stripFenceJson (jsTrim raw)))) with
    | some v =>
      rw [h1] at hs
      simp only [Option.some.injEq] at hs
      exact hs ▸ htry _ v h1
    | none =>
      rw [h1] at hs
      cases h2 : braceSlice (stripFenceEnd (stripFencePlain (stripFenceJson (jsTrim raw)))) with
      | some m => rw [h2] at hs; exact htry m s hs
      | none => rw [h2] at hs; exact absurd hs (by simp)
  refine ⟨hclamp, by nlinarith [hclamp.1, hclamp.2], by nlinarith [hclamp.1, hclamp.2]⟩

/-- Witness for `parse_verifier_clamped`: a parse oracle reporting the
out-of-range score 5 is clamped to 1, and the blend with heuristic 1/2
stays inside `[0, 1]`. -/
theorem parse_verifier_clamped_witness :
    ((0 : ℚ) ≤ 1 ∧ (1 : ℚ) ≤ 1)
    ∧ 0 ≤ (1/2 : ℚ) * (78/100) + 1 * (22/100)
    ∧ (1/2 : ℚ) * (78/100) + 1 * (22/100) ≤ 1 :=
  parse_verifier_clamped (fun _ => some 5) [] 1 (1/2)
    (by unfold parseVerifierScore parseVerifierCore tryParseScore jsTrim stripFenceJson
          stripFencePlain stripFenceEnd clamp01
        norm_num)
    (by norm_num) (by norm_num)

/-- C1: in a PDF escalation run, an attempt is accepted exactly when the
effective score reaches the required score or the profile is the last
candidate; the required score is `max(0.45, minQualityScore − 0.1)` with
`accuracy` requiring 0; and the effective score is the heuristic score
when there is no verifier opinion and `0.78·heuristic + 0.22·verifier`
when there is one. -/
theorem pdf_acceptance_rule (js : Str → Option ℚ) (text : Str) (reply : Option Str)
    (p : OptimizationProfile) (isLast : Bool) :
    (geminiService.acceptedFor js text reply p isLast = true ↔
      geminiService.requiredPdfScore p ≤ geminiService.qualityScoreFor js text reply p
        ∨ isLast = true)
    ∧ geminiService.requiredPdfScore p =
        (if p = .accuracy then 0
         else max (45/100) ((OCR_PROFILE_POLICIES p).minQualityScore - 1/10))
    ∧ geminiService.qualityScoreFor js text reply p =
        (match geminiService.verifierScoreFor js text reply p with
         | none => (geminiService.evaluateQuality text).score
         | some v => (78/100) * (geminiService.evaluateQuality text).score + (22/100) * v) := by
  refine ⟨?_, ?_, ?_⟩
  · unfold geminiService.acceptedFor
    simp
  · unfold geminiService.requiredPdfScore PDF_ESCALATION_THRESHOLD
    rfl
  · unfold geminiService.qualityScoreFor effectiveScore
    cases hv : geminiService.verifierScoreFor js text reply p
    · rfl
    · dsimp only
      ring

/-- C6: every quality heuristic score lies in `[0, 1]` (both the PDF and
image-span variants), and every text whose trimmed length is below the
minimum-length floor (120 characters for PDF, 80 for image spans) incurs
the flat too-short penalty (0.25 resp. 0.2 subtracted before the clamp)
and the corresponding human-readable reason string. -/
theorem quality_score_range_and_short_reason (text : Str) :
    (0 ≤ (geminiService.evaluateQuality text).score
      ∧ (geminiService.evaluateQuality text).score ≤ 1)
    ∧ (0 ≤ (imageService.evaluateQuality text).score
      ∧ (imageService.evaluateQuality text).score ≤ 1)
    ∧ (trimmedLength text < 120 →
        geminiService.shortPenalty text = 25/100
        ∧ (geminiService.evaluateQuality text).score
            = clamp01 (geminiService.preScore text - 25/100 - geminiService.structurePenalty text)
        ∧ "Output is unexpectedly short" ∈ (geminiService.evaluateQuality text).reasons)
    ∧ (trimmedLength text < 80 →
        imageService.shortPenalty text = 2/10
        ∧ (imageService.evaluateQuality text).score
            = clamp01 (imageService.preScore text - 2/10 - imageService.structurePenalty text)
        ∧ "Chunk output is unexpectedly short" ∈ (imageService.evaluateQuality text).reasons) := by
  refine ⟨clamp01_bounds _, clamp01_bounds _, ?_, ?_⟩
  · intro hshort
    have hpen : geminiService.shortPenalty text = 25/100 := by
      unfold geminiService.shortPenalty
      rw [if_pos hshort]
    refine ⟨hpen, by rw [geminiService.evaluateQuality, hpen], ?_⟩
    have hmem : "Output is unexpectedly short" ∈ geminiService.reasonsRaw text := by
      unfold geminiService.reasonsRaw
      simp [hshort]
    show _ ∈ (geminiService.evaluateQuality text).reasons
    unfold geminiService.evaluateQuality geminiService.reasonsFor
    rw [if_neg (by simp [List.isEmpty_iff, List.ne_nil_of_mem hmem])]
    exact hmem
  · intro hshort
    have hpen : imageService.shortPenalty text = 2/10 := by
      unfold imageService.shortPenalty
      rw [if_pos hshort]
    refine ⟨hpen, by rw [imageService.evaluateQuality, hpen], ?_⟩
    have hmem : "Chunk output is unexpectedly short" ∈ imageService.reasonsRaw text := by
      unfold imageService.reasonsRaw
      simp [hshort]
    show _ ∈ (imageService.evaluateQuality text).reasons
    unfold imageService.evaluateQuality imageService.reasonsFor
    rw [if_neg (by simp [List.isEmpty_iff, List.ne_nil_of_mem hmem])]
    exact hmem

/-- Witness for `quality_score_range_and_short_reason` at the empty text
(trimmed length 0, below both floors). -/
theorem quality_score_range_and_short_reason_witness :
    (0 ≤ (geminiService.evaluateQuality []).score
      ∧ (geminiService.evaluateQuality []).score ≤ 1)
    ∧ (geminiService.shortPenalty [] = 25/100
      ∧ (geminiService.evaluateQuality []).score
          = clamp01 (geminiService.preScore [] - 25/100 - geminiService.structurePenalty [])
      ∧ "Output is unexpectedly short" ∈ (geminiService.evaluateQuality []).reasons)
    ∧ (imageService.shortPenalty [] = 2/10
      ∧ (imageService.evaluateQuality []).score
          = clamp01 (imageService.preScore [] - 2/10 - imageService.structurePenalty [])
      ∧ "Chunk output is unexpectedly short" ∈ (imageService.evaluateQuality []).reasons) :=
  ⟨(quality_score_range_and_short_reason []).1,
   (quality_score_range_and_short_reason []).2.2.1 (by decide),
   (quality_score_range_and_short_reason []).2.2.2 (by decide)⟩

/-- Unfolding equation: the PDF escalation loop on an empty candidate
list. -/
theorem analyzePdfGo_nil (js : Str → Option ℚ) (key : Str) (now : ℕ) :
    geminiService.analyzePdfGo js key now [] = ⟨[], [], [], false⟩ := rfl

/-- Unfolding equation: the PDF escalation loop on a failed attempt. -/
theorem analyzePdfGo_failure (js : Str → Option ℚ) (key : Str) (now : ℕ)
    (p : OptimizationProfile) (rest : List (OptimizationProfile × geminiService.PdfAttemptOutcome)) :
    geminiService.analyzePdfGo js key now ((p, .failure) :: rest) =
      (if rest.isEmpty then ⟨[profileStartEvent p], [], [], true⟩
       else
        ⟨profileStartEvent p :: failEscalationEvent p ::
            (geminiService.analyzePdfGo js key now rest).events,
          (geminiService.analyzePdfGo js key now rest).writes,
          (geminiService.analyzePdfGo js key now rest).chunks,
          (geminiService.analyzePdfGo js key now rest).failed⟩) := rfl

/-- Unfolding equation: the PDF escalation loop on a successful
generation call. -/
theorem analyzePdfGo_success (js : Str → Option ℚ) (key : Str) (now : ℕ)
    (p : OptimizationProfile) (text : Str) (reply : Option Str)
    (rest : List (OptimizationProfile × geminiService.PdfAttemptOutcome)) :
    geminiService.analyzePdfGo js key now ((p, .success text reply) :: rest) =
      (if geminiService.acceptedFor js text reply p rest.isEmpty then
        ⟨[profileStartEvent p,
          acceptedEvent p (geminiService.qualityScoreFor js text reply p)
            (geminiService.verifierScoreFor js text reply p),
          completedEvent p (geminiService.qualityScoreFor js text reply p)
            (geminiService.verifierScoreFor js text reply p)],
         [(key, ⟨now, text, p, geminiService.qualityScoreFor js text reply p⟩)],
         createTextStream text, false⟩
       else
        ⟨profileStartEvent p ::
            escalatedEvent p (geminiService.qualityScoreFor js text reply p)
              (geminiService.verifierScoreFor js text reply p) ::
            (geminiService.analyzePdfGo js key now rest).events,
          (geminiService.analyzePdfGo js key now rest).writes,
          (geminiService.analyzePdfGo js key now rest).chunks,
          (geminiService.analyzePdfGo js key now rest).failed⟩) := rfl

/-- Unfolding equation: span resolution with no remaining profiles. -/
theorem resolveSpanGo_nil (js : Str → Option ℚ) :
    imageService.resolveSpanGo js [] = .err [] := rfl

/-- Unfolding equation: span resolution on a failed attempt. -/
theorem resolveSpanGo_failure (js : Str → Option ℚ) (p : OptimizationProfile)
    (rest : List (OptimizationProfile × imageService.SpanOutcome)) :
    imageService.resolveSpanGo js ((p, .failure) :: rest) =
      (if rest.isEmpty then .err [profileStartEvent p]
       else
        match imageService.resolveSpanGo js rest with
        | .ok evs r => .ok (profileStartEvent p :: failEscalationEvent p :: evs) r
        | .err evs => .err (profileStartEvent p :: failEscalationEvent p :: evs)) := rfl

/-- Unfolding equation: span resolution on a successful generation call. -/
theorem resolveSpanGo_success (js : Str → Option ℚ) (p : OptimizationProfile)
    (text : Str) (reply : Option Str)
    (rest : List (OptimizationProfile × imageService.SpanOutcome)) :
    imageService.resolveSpanGo js ((p, .success text reply) :: rest) =
      (if imageService.spanAccepted js text reply p rest.isEmpty then
        .ok [profileStartEvent p,
             acceptedEvent p (imageService.spanQualityScore js text reply p)
               (imageService.spanVerifierScore js text reply p)]
          ⟨text, p, imageService.spanQualityScore js text reply p⟩
       else
        match imageService.resolveSpanGo js rest with
        | .ok evs r =>
          .ok (profileStartEvent p ::
            escalatedEvent p (imageService.spanQualityScore js text reply p)
              (imageService.spanVerifierScore js text reply p) :: evs) r
        | .err evs =>
          .err (profileStartEvent p ::
            escalatedEvent p (imageService.spanQualityScore js text reply p)
              (imageService.spanVerifierScore js text reply p) :: evs)) := rfl

/-- Every chunk produced by `createTextStream` from a text of bounded
length is at most `OUTPUT_STREAM_CHUNK_SIZE` characters. -/
theorem mem_createTextStream_le (n : ℕ) :
    ∀ text : Str, text.length ≤ n →
      ∀ c ∈ createTextStream text, c.length ≤ OUTPUT_STREAM_CHUNK_SIZE := by
  induction n with
  | zero =>
    intro text hlen c hc
    obtain rfl : text = [] := List.length_eq_zero.mp (Nat.le_zero.mp hlen)
    unfold createTextStream at hc
    simp at hc
  | succ m ih =>
    intro text hlen c hc
    by_cases hnil : text = []
    · subst hnil
      unfold createTextStream at hc
      simp at hc
    · unfold createTextStream at hc
      rw [dif_neg hnil, List.mem_cons] at hc
      rcases hc with rfl | hc
      · rw [List.length_take]
        exact min_le_left _ _
      · refine ih (text.drop OUTPUT_STREAM_CHUNK_SIZE) ?_ c hc
        rw [List.length_drop]
        have hpos : 0 < text.length := List.length_pos.mpr hnil
        simp only [OUTPUT_STREAM_CHUNK_SIZE]
        omega

/-- The chunks of a live PDF escalation run all come from
`createTextStream` on the accepted attempt's text. -/
theorem analyzePdfGo_chunks_le (js : Str → Option ℚ) (key : Str) (now : ℕ) :
    ∀ attempts, ∀ c ∈ (geminiService.analyzePdfGo js key now attempts).chunks,
      c.length ≤ OUTPUT_STREAM_CHUNK_SIZE := by
  intro attempts
  induction attempts with
  | nil =>
    intro c hc
    rw [analyzePdfGo_nil] at hc
    simp at hc
  | cons head rest ih =>
    obtain ⟨p, o⟩ := head
    intro c hc
    cases o with
    | failure =>
      rw [analyzePdfGo_failure] at hc
      by_cases hL : rest.isEmpty = true
      · rw [if_pos hL] at hc; simp at hc
      · rw [if_neg hL] at hc; exact ih c hc
    | success text reply =>
      rw [analyzePdfGo_success] at hc
      by_cases hA : geminiService.acceptedFor js text reply p rest.isEmpty = true
      · rw [if_pos hA] at hc
        exact mem_createTextStream_le text.length text le_rfl c hc
      · rw [if_neg hA] at hc; exact ih c hc

/-- Source: `createTextStream` on a one-character text yields that single
character as its only chunk. -/
theorem createTextStream_single (c : Char) : createTextStream [c] = [[c]] := by
  unfold createTextStream
  rw [dif_neg (by simp)]
  rw [List.take_of_length_le (by norm_num [OUTPUT_STREAM_CHUNK_SIZE]),
    List.drop_eq_nil_of_le (by norm_num [OUTPUT_STREAM_CHUNK_SIZE])]
  unfold createTextStream
  simp

/-- C3 (amended): chunking at `OUTPUT_STREAM_CHUNK_SIZE = 1400` holds for
`createTextStream` (hence for the cached replay paths of both services)
and for every chunk of a PDF run, cached or live; the cached
image-sequence path replays exactly `createTextStream` of the cached
text. (The live image-sequence path instead yields one chunk per
accepted span, of unbounded size — see the counterexample.) -/
theorem output_chunk_bound :
    (∀ text : Str, ∀ c ∈ createTextStream text, c.length ≤ OUTPUT_STREAM_CHUNK_SIZE)
    ∧ (∀ (js : Str → Option ℚ) (cacheKey : Str) (now : ℕ)
        (cached : Option geminiService.PdfCacheEntry) (len : ℕ)
        (o : Option ModelType) (outs : List geminiService.PdfAttemptOutcome),
        ∀ c ∈ (geminiService.analyzePdfStreamModel js cacheKey now cached len o outs).chunks,
          c.length ≤ OUTPUT_STREAM_CHUNK_SIZE)
    ∧ (∀ (js : Str → Option ℚ) (cacheKey : Str) (now : ℕ)
        (entry : imageService.ImageCacheEntry) (o : Option ModelType)
        (spans : List (List imageService.SpanOutcome)),
        (imageService.analyzeImageSequenceStreamModel js cacheKey now (some entry) o spans).chunks
          = createTextStream entry.text) := by
  refine ⟨fun text => mem_createTextStream_le text.length text le_rfl, ?_, ?_⟩
  · intro js cacheKey now cached len o outs c hc
    cases cached with
    | some entry =>
      exact mem_createTextStream_le entry.text.length entry.text le_rfl c hc
    | none =>
      exact analyzePdfGo_chunks_le js cacheKey now _ c hc
  · intro js cacheKey now entry o spans
    rfl

/-- Witness for `output_chunk_bound`: each membership hypothesis
discharged on a one-character text. -/
theorem output_chunk_bound_witness :
    (['a'] : Str).length ≤ OUTPUT_STREAM_CHUNK_SIZE
    ∧ (['b'] : Str).length ≤ OUTPUT_STREAM_CHUNK_SIZE
    ∧ (imageService.analyzeImageSequenceStreamModel (fun _ => none) [] 0
        (some ⟨0, ['c'], .economy, 0⟩) none []).chunks = createTextStream ['c'] :=
  ⟨output_chunk_bound.1 ['a'] ['a'] (by rw [createTextStream_single]; simp),
   output_chunk_bound.2.1 (fun _ => none) [] 0 (some ⟨0, ['b'], .economy, 0⟩) 0 none []
     ['b'] (by show ['b'] ∈ createTextStream ['b']; rw [createTextStream_single]; simp),
   output_chunk_bound.2.2 (fun _ => none) [] 0 ⟨0, ['c'], .economy, 0⟩ none []⟩

/-- Source: `dropWhile isJsSpace` leaves a run of `'a'` untouched. -/
theorem dropWhile_space_replicate (n : ℕ) :
    (List.replicate n 'a').dropWhile isJsSpace = List.replicate n 'a' := by
  cases n with
  | zero => rfl
  | succ m =>
    rw [List.replicate_succ, List.dropWhile_cons, if_neg (by decide)]

/-- Trimming a run of `'a'` is the identity. -/
theorem jsTrim_replicate (n : ℕ) :
    jsTrim (List.replicate n 'a') = List.replicate n 'a' := by
  unfold jsTrim
  rw [dropWhile_space_replicate, List.reverse_replicate, dropWhile_space_replicate,
    List.reverse_replicate]

/-- C3 counterexample: in live image-sequence mode a single accepted span
of 1401 characters is yielded to the caller as one chunk of length 1401,
exceeding the fixed chunk size of 1400 — so the live image path is not
chunked at `OUTPUT_STREAM_CHUNK_SIZE`, unlike the cached replay path. -/
theorem image_live_chunk_oversized :
    ∃ c ∈ (imageService.analyzeImageSequenceStreamModel (fun _ => none) [] 0 none (some .PRO)
        [[imageService.SpanOutcome.success oversizedSpanText none]]).chunks,
      OUTPUT_STREAM_CHUNK_SIZE < c.length := by
  have haccept : imageService.spanAccepted (fun _ => none) oversizedSpanText none .accuracy true
      = true := by
    unfold imageService.spanAccepted
    simp
  have h1 : imageService.resolveSpanGo (fun _ => none)
      [(OptimizationProfile.accuracy, imageService.SpanOutcome.success oversizedSpanText none)]
      = .ok [profileStartEvent .accuracy,
             acceptedEvent .accuracy
               (imageService.spanQualityScore (fun _ => none) oversizedSpanText none .accuracy)
               (imageService.spanVerifierScore (fun _ => none) oversizedSpanText none .accuracy)]
          ⟨oversizedSpanText, .accuracy,
            imageService.spanQualityScore (fun _ => none) oversizedSpanText none .accuracy⟩ := by
    rw [resolveSpanGo_success]
    rw [show ([] : List (OptimizationProfile × imageService.SpanOutcome)).isEmpty = true from rfl,
      haccept]
    rw [if_pos rfl]
  have hne : oversizedSpanText ≠ [] := by
    intro h
    have hl := List.length_replicate 1401 'a'
    rw [show List.replicate 1401 'a' = oversizedSpanText from rfl, h] at hl
    simp at hl
  have htrim : jsTrim oversizedSpanText = oversizedSpanText := by
    unfold oversizedSpanText
    exact jsTrim_replicate 1401
  refine ⟨oversizedSpanText, ?_, ?_⟩
  · unfold imageService.analyzeImageSequenceStreamModel imageService.resolveImageCandidateProfiles
    simp only [List.zip_cons_cons, List.zip_nil_right, List.headD, imageService.imageLoop]
    rw [h1]
    dsimp only
    rw [htrim]
    simp [List.isEmpty_eq_false.mpr hne]
  · unfold oversizedSpanText OUTPUT_STREAM_CHUNK_SIZE
    rw [List.length_replicate]
    norm_num

/-- Unfolding equation: the image span loop with no spans left. -/
theorem imageLoop_nil (js : Str → Option ℚ) (key : Str) (now : ℕ)
    (candidates : List OptimizationProfile) (acc : Str) (hp : OptimizationProfile)
    (mq : ℚ) (carry : Str) :
    imageService.imageLoop js key now candidates [] acc hp mq carry =
      ⟨[completedCachedEvent hp (if acc.isEmpty then 0 else mq)],
       [(key, ⟨now, acc, hp, if acc.isEmpty then 0 else mq⟩)], [], false⟩ := rfl

/-- Unfolding equation: one iteration of the image span loop. -/
theorem imageLoop_cons (js : Str → Option ℚ) (key : Str) (now : ℕ)
    (candidates : List OptimizationProfile) (outs : List imageService.SpanOutcome)
    (rest : List (List imageService.SpanOutcome)) (acc : Str)
    (hp : OptimizationProfile) (mq : ℚ) (carry : Str) :
    imageService.imageLoop js key now candidates (outs :: rest) acc hp mq carry =
      (match imageService.resolveSpanGo js (candidates.zip outs) with
       | .err evs => ⟨evs, [], [], true⟩
       | .ok evs res =>
         let normalized := jsTrim res.text
         let appendText : Str :=
           if normalized.isEmpty then []
           else if acc.isEmpty then normalized
           else '\n' :: '\n' :: normalized
         let carry2 := imageService.extractCarryContext normalized
           (OCR_PROFILE_POLICIES res.profile).carryContextChars
         let r := imageService.imageLoop js key now candidates rest (acc ++ appendText)
           (imageService.maxProfile hp res.profile) (min mq res.qualityScore) carry2
         ⟨evs ++ r.events, r.writes,
          (if appendText.isEmpty then [] else [appendText]) ++ r.chunks, r.failed⟩) := rfl

/-- In a PDF escalation run, the number of cache writes equals the number
of `profile-accepted` events (at most one), every write targets the
computed cache key with the loop's timestamp, carries an accepted
attempt's profile and quality, and its text is exactly the text replayed
to the caller. -/
theorem analyzePdfGo_writes_invariant (js : Str → Option ℚ) (key : Str) (now : ℕ) :
    ∀ attempts,
      ((geminiService.analyzePdfGo js key now attempts).writes.length =
        ((geminiService.analyzePdfGo js key now attempts).events.filter
          (fun e => decide (e.type = .profileAccepted))).length)
      ∧ ∀ w ∈ (geminiService.analyzePdfGo js key now attempts).writes,
          w.1 = key ∧ w.2.createdAt = now
          ∧ (∃ e ∈ (geminiService.analyzePdfGo js key now attempts).events,
              e.type = .profileAccepted ∧ e.profile = w.2.profile
                ∧ e.qualityScore = some w.2.quality)
          ∧ (geminiService.analyzePdfGo js key now attempts).chunks
              = createTextStream w.2.text := by
  intro attempts
  induction attempts with
  | nil =>
    rw [analyzePdfGo_nil]
    exact ⟨rfl, by intro w hw; simp at hw⟩
  | cons head rest ih =>
    obtain ⟨p, o⟩ := head
    obtain ⟨ih1, ih2⟩ := ih
    cases o with
    | failure =>
      rw [analyzePdfGo_failure]
      by_cases hL : rest.isEmpty = true
      · rw [if_pos hL]
        refine ⟨?_, by intro w hw; simp at hw⟩
        simp [profileStartEvent]
      · rw [if_neg hL]
        refine ⟨?_, ?_⟩
        · simpa [List.filter_cons, profileStartEvent, failEscalationEvent] using ih1
        · intro w hw
          obtain ⟨h1, h2, ⟨e, he, hety, hep, heq⟩, hch⟩ := ih2 w hw
          exact ⟨h1, h2, ⟨e, by simp [he], hety, hep, heq⟩, hch⟩
    | success text reply =>
      rw [analyzePdfGo_success]
      by_cases hA : geminiService.acceptedFor js text reply p rest.isEmpty = true
      · rw [if_pos hA]
        refine ⟨?_, ?_⟩
        · simp [profileStartEvent, acceptedEvent, completedEvent]
        · intro w hw
          rw [List.mem_singleton] at hw
          subst hw
          refine ⟨rfl, rfl, ?_, rfl⟩
          exact ⟨acceptedEvent p (geminiService.qualityScoreFor js text reply p)
              (geminiService.verifierScoreFor js text reply p),
            by simp, rfl, rfl, rfl⟩
      · rw [if_neg hA]
        refine ⟨?_, ?_⟩
        · simpa [List.filter_cons, profileStartEvent, escalatedEvent] using ih1
        · intro w hw
          obtain ⟨h1, h2, ⟨e, he, hety, hep, heq⟩, hch⟩ := ih2 w hw
          exact ⟨h1, h2, ⟨e, by simp [he], hety, hep, heq⟩, hch⟩

/-- In an image-sequence run, the cache is written exactly once, at the
very end after every span resolved, and the cached text is the
accumulator — the concatenation of everything replayed to the caller; a
failed run writes nothing. -/
theorem imageLoop_writes_invariant (js : Str → Option ℚ) (key : Str) (now : ℕ)
    (candidates : List OptimizationProfile) :
    ∀ spans acc hp mq carry,
      ((imageService.imageLoop js key now candidates spans acc hp mq carry).failed = false →
        ∃ entry,
          (imageService.imageLoop js key now candidates spans acc hp mq carry).writes
            = [(key, entry)]
          ∧ entry.createdAt = now
          ∧ entry.text
              = acc ++ (imageService.imageLoop js key now candidates spans acc hp mq carry).chunks.flatten)
      ∧ ((imageService.imageLoop js key now candidates spans acc hp mq carry).failed = true →
        (imageService.imageLoop js key now candidates spans acc hp mq carry).writes = []) := by
  intro spans
  induction spans with
  | nil =>
    intro acc hp mq carry
    rw [imageLoop_nil]
    exact ⟨fun _ => ⟨⟨now, acc, hp, if acc.isEmpty then 0 else mq⟩, rfl, rfl, by simp⟩,
      fun hfail => by simp at hfail⟩
  | cons outs rest ih =>
    intro acc hp mq carry
    rw [imageLoop_cons]
    cases hres : imageService.resolveSpanGo js (candidates.zip outs) with
    | err evs =>
      exact ⟨fun hfail => by simp at hfail, fun _ => rfl⟩
    | ok evs res =>
      dsimp only
      constructor
      · intro hok
        obtain ⟨entry, hw, hc, ht⟩ := (ih _ _ _ _).1 hok
        refine ⟨entry, hw, hc, ?_⟩
        rw [ht, List.flatten_append]
        by_cases hemp : (if (jsTrim res.text).isEmpty = true then ([] : Str)
            else if acc.isEmpty = true then jsTrim res.text
            else '\n' :: '\n' :: jsTrim res.text).isEmpty = true
        · rw [if_pos hemp]
          rw [List.isEmpty_iff] at hemp
          rw [hemp]
          simp
        · rw [if_neg hemp]
          simp [List.append_assoc]
      · intro hfail
        exact (ih _ _ _ _).2 hfail

/-- A PDF escalation run performs at most one cache write. -/
theorem analyzePdfGo_writes_le_one (js : Str → Option ℚ) (key : Str) (now : ℕ) :
    ∀ attempts, (geminiService.analyzePdfGo js key now attempts).writes.length ≤ 1 := by
  intro attempts
  induction attempts with
  | nil => rw [analyzePdfGo_nil]; simp
  | cons head rest ih =>
    obtain ⟨p, o⟩ := head
    cases o with
    | failure =>
      rw [analyzePdfGo_failure]
      by_cases hL : rest.isEmpty = true
      · rw [if_pos hL]; simp
      · rw [if_neg hL]; exact ih
    | success text reply =>
      rw [analyzePdfGo_success]
      by_cases hA : geminiService.acceptedFor js text reply p rest.isEmpty = true
      · rw [if_pos hA]; simp
      · rw [if_neg hA]; exact ih

/-- C4: a cache entry is only written after acceptance. PDF: the number
of writes equals the number of `profile-accepted` events, and the (at
most one) write goes to the computed key with the accepted attempt's
text, profile and quality, the text being exactly what is replayed.
Image sequences: when the run completes (every span resolved to
acceptance) exactly one entry is written, as one unit, whose text is the
whole accumulated output; a failed run writes nothing, and cached
replays write nothing. -/
theorem cache_written_only_on_acceptance (js : Str → Option ℚ) (key : Str) (now : ℕ) :
    (∀ attempts,
      ((geminiService.analyzePdfGo js key now attempts).writes.length =
        ((geminiService.analyzePdfGo js key now attempts).events.filter
          (fun e => decide (e.type = .profileAccepted))).length
        ∧ (geminiService.analyzePdfGo js key now attempts).writes.length ≤ 1)
      ∧ ∀ w ∈ (geminiService.analyzePdfGo js key now attempts).writes,
          w.1 = key ∧ w.2.createdAt = now
          ∧ (∃ e ∈ (geminiService.analyzePdfGo js key now attempts).events,
              e.type = .profileAccepted ∧ e.profile = w.2.profile
                ∧ e.qualityScore = some w.2.quality)
          ∧ (geminiService.analyzePdfGo js key now attempts).chunks
              = createTextStream w.2.text)
    ∧ (∀ (o : Option ModelType) (spans : List (List imageService.SpanOutcome)),
        ((imageService.analyzeImageSequenceStreamModel js key now none o spans).failed = false →
          ∃ entry,
            (imageService.analyzeImageSequenceStreamModel js key now none o spans).writes
              = [(key, entry)]
            ∧ entry.createdAt = now
            ∧ entry.text
                = (imageService.analyzeImageSequenceStreamModel js key now none o spans).chunks.flatten)
        ∧ ((imageService.analyzeImageSequenceStreamModel js key now none o spans).failed = true →
          (imageService.analyzeImageSequenceStreamModel js key now none o spans).writes = [])) := by
  constructor
  · intro attempts
    obtain ⟨h1, h2⟩ := analyzePdfGo_writes_invariant js key now attempts
    exact ⟨⟨h1, analyzePdfGo_writes_le_one js key now attempts⟩, h2⟩
  · intro o spans
    have hmodel : imageService.analyzeImageSequenceStreamModel js key now none o spans
        = imageService.imageLoop js key now (imageService.resolveImageCandidateProfiles o) spans []
            ((imageService.resolveImageCandidateProfiles o).headD .economy) 1 [] := rfl
    have h := imageLoop_writes_invariant js key now
      (imageService.resolveImageCandidateProfiles o) spans []
      ((imageService.resolveImageCandidateProfiles o).headD .economy) 1 []
    rw [hmodel]
    exact ⟨fun hok => by
        obtain ⟨entry, hw, hc, ht⟩ := h.1 hok
        exact ⟨entry, hw, hc, by rw [ht]; simp⟩,
      h.2⟩

/-- Witness for `cache_written_only_on_acceptance`: a one-attempt PDF run
with forced acceptance at the last profile performs its single write;
an image run over zero spans completes with its single end-of-run write;
an image run whose first span has no attempt outcomes fails and writes
nothing. -/
theorem cache_written_only_on_acceptance_witness :
    ((([] : Str),
        (⟨0, [], .accuracy, geminiService.qualityScoreFor (fun _ => none) [] none .accuracy⟩
          : geminiService.PdfCacheEntry)).1 = ([] : Str)
      ∧ (⟨0, [], .accuracy,
          geminiService.qualityScoreFor (fun _ => none) [] none .accuracy⟩
            : geminiService.PdfCacheEntry).createdAt = 0
      ∧ (∃ e ∈ (geminiService.analyzePdfGo (fun _ => none) [] 0
            [(.accuracy, .success [] none)]).events,
          e.type = .profileAccepted
            ∧ e.profile = (⟨0, [], .accuracy,
                geminiService.qualityScoreFor (fun _ => none) [] none .accuracy⟩
                  : geminiService.PdfCacheEntry).profile
            ∧ e.qualityScore = some (⟨0, [], .accuracy,
                geminiService.qualityScoreFor (fun _ => none) [] none .accuracy⟩
                  : geminiService.PdfCacheEntry).quality)
      ∧ (geminiService.analyzePdfGo (fun _ => none) [] 0
            [(.accuracy, .success [] none)]).chunks
          = createTextStream (⟨0, [], .accuracy,
              geminiService.qualityScoreFor (fun _ => none) [] none .accuracy⟩
                : geminiService.PdfCacheEntry).text)
    ∧ (∃ entry,
        (imageService.analyzeImageSequenceStreamModel (fun _ => none) [] 0 none (some .PRO)
          []).writes = [(([] : Str), entry)]
        ∧ entry.createdAt = 0
        ∧ entry.text
            = (imageService.analyzeImageSequenceStreamModel (fun _ => none) [] 0 none (some .PRO)
                []).chunks.flatten)
    ∧ (imageService.analyzeImageSequenceStreamModel (fun _ => none) [] 0 none (some .PRO)
        [[]]).writes = [] := by
  have hA : geminiService.acceptedFor (fun _ => none) [] none .accuracy
      (([] : List (OptimizationProfile × geminiService.PdfAttemptOutcome)).isEmpty) = true := by
    unfold geminiService.acceptedFor
    simp
  have hmem : (([] : Str),
      (⟨0, [], .accuracy, geminiService.qualityScoreFor (fun _ => none) [] none .accuracy⟩
        : geminiService.PdfCacheEntry)) ∈
      (geminiService.analyzePdfGo (fun _ => none) [] 0
        [(.accuracy, .success [] none)]).writes := by
    rw [analyzePdfGo_success, if_pos hA]
    simp
  refine ⟨((cache_written_only_on_acceptance (fun _ => none) [] 0).1
      [(.accuracy, .success [] none)]).2 _ hmem, ?_, ?_⟩
  · exact ((cache_written_only_on_acceptance (fun _ => none) [] 0).2 (some .PRO) []).1 rfl
  · exact ((cache_written_only_on_acceptance (fun _ => none) [] 0).2 (some .PRO) [[]]).2 rfl

/-- C7: on a transport/generation failure during an attempt, if the
failing profile is the last candidate the run aborts with a propagated
(normalized) failure after the `profile-start` event and performs no
write and yields no chunk; otherwise a `profile-escalated` event carrying
no quality fields is emitted and the run continues with the next profile,
its writes, chunks and final status being those of the remaining
profiles. The same holds for image-span resolution. -/
theorem transport_failure_escalates_or_aborts (js : Str → Option ℚ) (key : Str) (now : ℕ)
    (p : OptimizationProfile)
    (rest : List (OptimizationProfile × geminiService.PdfAttemptOutcome))
    (irest : List (OptimizationProfile × imageService.SpanOutcome)) :
    geminiService.analyzePdfGo js key now ((p, .failure) :: rest) =
      (if rest.isEmpty then ⟨[profileStartEvent p], [], [], true⟩
       else
        ⟨profileStartEvent p :: failEscalationEvent p ::
            (geminiService.analyzePdfGo js key now rest).events,
          (geminiService.analyzePdfGo js key now rest).writes,
          (geminiService.analyzePdfGo js key now rest).chunks,
          (geminiService.analyzePdfGo js key now rest).failed⟩)
    ∧ imageService.resolveSpanGo js ((p, .failure) :: irest) =
      (if irest.isEmpty then .err [profileStartEvent p]
       else
        match imageService.resolveSpanGo js irest with
        | .ok evs r => .ok (profileStartEvent p :: failEscalationEvent p :: evs) r
        | .err evs => .err (profileStartEvent p :: failEscalationEvent p :: evs))
    ∧ failEscalationEvent p =
        ⟨.profileEscalated, p, none, none⟩ :=
  ⟨rfl, rfl, rfl⟩

/-- The text of an accepted span resolution always comes from one of the
span's successful attempt outcomes. -/
theorem resolveSpanGo_ok_text (js : Str → Option ℚ) :
    ∀ pairs evs res, imageService.resolveSpanGo js pairs = .ok evs res →
      ∃ p reply, (p, imageService.SpanOutcome.success res.text reply) ∈ pairs := by
  intro pairs
  induction pairs with
  | nil =>
    intro evs res h
    rw [resolveSpanGo_nil] at h
    exact absurd h (by simp)
  | cons head rest ih =>
    obtain ⟨p, o⟩ := head
    intro evs res h
    cases o with
    | failure =>
      rw [resolveSpanGo_failure] at h
      by_cases hL : rest.isEmpty = true
      · rw [if_pos hL] at h
        exact absurd h (by simp)
      · rw [if_neg hL] at h
        cases hrec : imageService.resolveSpanGo js rest with
        | ok evs2 r =>
          rw [hrec] at h
          injection h with h1 h2
          subst h2
          obtain ⟨p2, reply2, hm⟩ := ih evs2 r hrec
          exact ⟨p2, reply2, List.mem_cons_of_mem _ hm⟩
        | err evs2 =>
          rw [hrec] at h
          exact absurd h (by simp)
    | success text reply =>
      rw [resolveSpanGo_success] at h
      by_cases hA : imageService.spanAccepted js text reply p rest.isEmpty = true
      · rw [if_pos hA] at h
        injection h with h1 h2
        subst h2
        exact ⟨p, reply, List.mem_cons_self _ _⟩
      · rw [if_neg hA] at h
        cases hrec : imageService.resolveSpanGo js rest with
        | ok evs2 r =>
          rw [hrec] at h
          injection h with h1 h2
          subst h2
          obtain ⟨p2, reply2, hm⟩ := ih evs2 r hrec
          exact ⟨p2, reply2, List.mem_cons_of_mem _ hm⟩
        | err evs2 =>
          rw [hrec] at h
          exact absurd h (by simp)

/-- If every attempt outcome of every span trims to nothing, a completed
image span loop started with an empty accumulator caches empty text with
quality forced to 0, and yields no chunks. -/
theorem imageLoop_trim_empty (js : Str → Option ℚ) (key : Str) (now : ℕ)
    (candidates : List OptimizationProfile) :
    ∀ spans hp mq carry,
      (∀ outs ∈ spans, ∀ so ∈ outs, spanOutcomeTrimEmpty so = true) →
      (imageService.imageLoop js key now candidates spans [] hp mq carry).failed = false →
      ∃ hp2,
        (imageService.imageLoop js key now candidates spans [] hp mq carry).writes
          = [(key, ⟨now, [], hp2, 0⟩)]
        ∧ (imageService.imageLoop js key now candidates spans [] hp mq carry).chunks = [] := by
  intro spans
  induction spans with
  | nil =>
    intro hp mq carry _ _
    rw [imageLoop_nil]
    exact ⟨hp, by simp, rfl⟩
  | cons outs rest ih =>
    intro hp mq carry hempty hok
    cases hres : imageService.resolveSpanGo js (candidates.zip outs) with
    | err evs =>
      rw [imageLoop_cons, hres] at hok
      simp at hok
    | ok evs res =>
      rw [imageLoop_cons, hres] at hok
      rw [imageLoop_cons, hres]
      have htext : jsTrim res.text = [] := by
        obtain ⟨p, reply, hm⟩ := resolveSpanGo_ok_text js _ _ _ hres
        have hmem := (List.of_mem_zip hm).2
        have hte := hempty outs (List.mem_cons_self _ _) _ hmem
        unfold spanOutcomeTrimEmpty at hte
        exact List.isEmpty_iff.mp hte
      dsimp only at hok ⊢
      rw [htext] at hok ⊢
      simp only [List.isEmpty_nil, List.nil_append, List.append_nil] at hok ⊢
      simp at hok ⊢
      obtain ⟨hp2, hw, hc⟩ := ih _ _ _
        (fun o2 ho2 => hempty o2 (List.mem_cons_of_mem _ ho2)) hok
      exact ⟨⟨hp2, hw⟩, hc⟩

/-- C10: in image-sequence mode, if every span's contribution trims to
the empty string (so the accumulated output is empty), a completed run
caches the empty text with quality score forced to 0 — not the running
minimum of the accepted spans' scores — and yields no chunks. -/
theorem empty_accumulated_output_caches_zero_quality (js : Str → Option ℚ) (key : Str)
    (now : ℕ) (o : Option ModelType) (spans : List (List imageService.SpanOutcome))
    (hempty : ∀ outs ∈ spans, ∀ so ∈ outs, spanOutcomeTrimEmpty so = true)
    (hok : (imageService.analyzeImageSequenceStreamModel js key now none o spans).failed
      = false) :
    ∃ hp2,
      (imageService.analyzeImageSequenceStreamModel js key now none o spans).writes
        = [(key, ⟨now, [], hp2, 0⟩)]
      ∧ (imageService.analyzeImageSequenceStreamModel js key now none o spans).chunks = [] := by
  have hmodel : imageService.analyzeImageSequenceStreamModel js key now none o spans
      = imageService.imageLoop js key now (imageService.resolveImageCandidateProfiles o) spans []
          ((imageService.resolveImageCandidateProfiles o).headD .economy) 1 [] := rfl
  rw [hmodel] at hok ⊢
  exact imageLoop_trim_empty js key now _ spans _ 1 [] hempty hok

/-- Witness for `empty_accumulated_output_caches_zero_quality`: one span
whose only attempt returns empty text, resolved under a pinned PRO tier. -/
theorem empty_accumulated_output_caches_zero_quality_witness :
    ∃ hp2,
      (imageService.analyzeImageSequenceStreamModel (fun _ => none) [] 0 none (some .PRO)
        [[imageService.SpanOutcome.success [] none]]).writes
        = [(([] : Str), ⟨0, [], hp2, 0⟩)]
      ∧ (imageService.analyzeImageSequenceStreamModel (fun _ => none) [] 0 none (some .PRO)
          [[imageService.SpanOutcome.success [] none]]).chunks = [] := by
  have haccept : imageService.spanAccepted (fun _ => none) [] none .accuracy true = true := by
    unfold imageService.spanAccepted
    simp
  have hok : (imageService.analyzeImageSequenceStreamModel (fun _ => none) [] 0 none (some .PRO)
      [[imageService.SpanOutcome.success [] none]]).failed = false := by
    have hmodel : imageService.analyzeImageSequenceStreamModel (fun _ => none) [] 0 none
        (some .PRO) [[imageService.SpanOutcome.success [] none]]
        = imageService.imageLoop (fun _ => none) [] 0 [.accuracy]
            [[imageService.SpanOutcome.success [] none]] [] .accuracy 1 [] := rfl
    rw [hmodel, imageLoop_cons]
    rw [show ([OptimizationProfile.accuracy].zip [imageService.SpanOutcome.success [] none])
      = [(OptimizationProfile.accuracy, imageService.SpanOutcome.success [] none)] from rfl]
    rw [resolveSpanGo_success]
    rw [show ([] : List (OptimizationProfile × imageService.SpanOutcome)).isEmpty = true from rfl,
      haccept, if_pos rfl]
    rfl
  exact empty_accumulated_output_caches_zero_quality (fun _ => none) [] 0 (some .PRO)
    [[imageService.SpanOutcome.success [] none]] (by decide) hok
